import Mathlib

/-!
Verification of the match-session coordinator of the chess-api repository
(package `server/game`). The current revision lives in `src/server/game/game.go`
(types `Player`, `Match`, functions `NewMatch`, `Join`, `MoveAs`, `doMove`,
`Resign`, `GetPlayerFromUsername`); an older revision of the same coordinator
lives in `src/server/game/match.go`.

Modelling conventions:
* Go `time.Time` / `time.Duration` are `Int` nanoseconds.
* A Go buffered channel `chan Event` (capacity 10) is `Option (List Event)`:
  `none` is the nil channel of a zero `Player`, `some l` is a channel whose
  buffer currently holds the queued events `l` in FIFO order.
* A plain Go send `ch <- e` blocks when the channel is nil or its buffer is
  full; since the coordinator performs sends while holding the match lock and
  the single consumer cannot run concurrently in our sequential model, a
  blocked send never completes: operations that use plain sends return
  `Option`, `none` meaning the operation blocks and never returns.
* A `select { case ch <- e: default: }` send never blocks: on a full buffer the
  event is dropped (and the code logs a warning, which we do not model).
* The rules engine (`github.com/notnil/chess`, an external collaborator per the
  design) is an abstract `Engine` over an opaque position type: `turn` reads
  the side to move, `applyUCI` decodes-and-applies a move string (`none` when
  the notation is undecodable or the move illegal), `resignAs` records a
  resignation. Its two laws are the engine facts the coordinator relies on: a
  chess position is never "no colour to move", and a successfully applied move
  hands the turn to the other side.
-/

/-- Piece colour, mirroring `chess.Color` of notnil/chess
(`NoColor`, `White`, `Black`). -/
inductive Color where
  | noColor : Color
  | white : Color
  | black : Color
deriving DecidableEq

/-- Complement colour, mirroring `chess.Color.Other` of notnil/chess:
white and black swap, `NoColor` maps to itself. -/
def Color.other : Color → Color
  | Color.white => Color.black
  | Color.black => Color.white
  | Color.noColor => Color.noColor

/-- Event discriminator, from `EventType` in game.go
(`Move`, `OpponentInfo`, `Resign`). -/
inductive EventType where
  | move : EventType
  | opponentInfo : EventType
  | resign : EventType
deriving DecidableEq

/-- Event payload, from `type Event struct` in game.go. Times are `Int`
nanosecond timestamps; the two optional times model the `*time.Time` fields. -/
structure Event where
  type : EventType
  move : String
  oponentUsername : String
  opponentBlack : Bool
  startTime : Option Int
  endTime : Option Int
deriving DecidableEq

/-- Constructor `EventMove` from game.go: only `Type` and `Move` are set. -/
def EventMove (opponentMove : String) : Event :=
  ⟨EventType.move, opponentMove, "", false, none, none⟩

/-- Constructor `EventResigned` from game.go: only `Type` is set. -/
def EventResigned : Event :=
  ⟨EventType.resign, "", "", false, none, none⟩

/-- Constructor `EventStarted` from game.go, fired when the second player
joins. -/
def EventStarted (opponentUsername : String) (opponentBlack : Bool)
    (startTime endTime : Int) : Event :=
  ⟨EventType.opponentInfo, "", opponentUsername, opponentBlack,
    some startTime, some endTime⟩

/-- Capacity of a player's event channel: `make(chan Event, 10)` in
`NewPlayer` (player.go). -/
def chanCap : Nat := 10

/-- A Go buffered `chan Event`: `none` is the nil channel, `some l` a channel
whose buffer holds `l` (FIFO). -/
abbrev EventChan := Option (List Event)

/-- Non-blocking send, the `select`/`default` idiom of `Match.MoveAs`: on a
full buffer the event is dropped. Returns the channel after the send; callers
only reach this with a non-nil channel (game.go guards with
`if oppEvents != nil`). -/
def sendNonBlocking (buf : List Event) (e : Event) : List Event :=
  if buf.length < chanCap then buf ++ [e] else buf

/-- Plain (blocking) send `ch <- e`: `none` when the send blocks forever
(nil channel, or full buffer with the lock held so the consumer is the only
escape and the producer holds the state), otherwise the new buffer. -/
def sendBlocking (ch : EventChan) (e : Event) : Option (List Event) :=
  match ch with
  | none => none
  | some buf => if buf.length < chanCap then some (buf ++ [e]) else none

/-- Player, from `type Player struct` in player.go. The zero value
(empty username, id 0, `NoColor`, nil channel) is what an unoccupied
participant slot of a `Match` holds. -/
structure Player where
  username : String
  id : Nat
  color : Color
  events : EventChan
deriving DecidableEq

/-- Zero value of `Player`, the content of an empty participant slot. -/
def Player.zero : Player := ⟨"", 0, Color.noColor, none⟩

/-- Constructor `NewPlayer` from player.go: fresh buffered channel of
capacity 10, initially empty. -/
def NewPlayer (username : String) (id : Nat) (color : Color) : Player :=
  ⟨username, id, color, some []⟩

/-- Match session, from `type Match struct` in game.go, current revision.
`pos` is the engine-owned position handle (`Chess *chess.Game`);
`numPlayers` the atomic player counter; `players` the fixed two-slot
participant array; `shutDown` records whether the cleanup context has been
cancelled (`ShutDown func()` called). -/
structure Match (Pos : Type) where
  startTime : Int
  endTime : Int
  id : String
  pos : Pos
  numPlayers : Nat
  player0 : Player
  player1 : Player
  shutDown : Bool
deriving DecidableEq

/-- Abstract rules engine, the external collaborator
(notnil/chess in game.go). `turn` is `Game.Position().Turn()`; `applyUCI`
fuses `UCINotation{}.Decode` and `Game.Move` (either failure yields `none`);
`resignAs` is `Game.Resign`. The laws: a position's side to move is never
`NoColor`, and an accepted move passes the turn to the other colour. -/
structure Engine (Pos : Type) where
  turn : Pos → Color
  applyUCI : Pos → String → Option Pos
  resignAs : Pos → Color → Pos
  turn_not_nocolor : ∀ p : Pos, turn p ≠ Color.noColor
  turn_alternates : ∀ (p : Pos) (s : String) (q : Pos),
    applyUCI p s = some q → turn q = (turn p).other

/-- One minute in nanoseconds (`time.Minute`). -/
def oneMinute : Int := 60 * 1000000000

/-- Twelve hours in nanoseconds (`time.Hour * 12`). -/
def twelveHours : Int := 12 * 60 * 60 * 1000000000

/-- Session construction, from `MatchStorage.NewMatch` in game.go:
`duration = max(time.Minute, duration); duration = min(time.Hour*12, duration)`
then `StartTime = now`, `EndTime = now + duration`, fresh engine position,
zero players. The registry insertion and the sweeper goroutine are not part
of the session value. The random 6-character id and the current time are
passed in as `idStr` and `now`. -/
def NewMatch {Pos : Type} (now : Int) (duration : Int) (idStr : String)
    (startPos : Pos) : Match Pos :=
  let d := max oneMinute duration
  let d := min twelveHours d
  { startTime := now
    endTime := now + d
    id := idStr
    pos := startPos
    numPlayers := 0
    player0 := Player.zero
    player1 := Player.zero
    shutDown := false }

/-- Counter read `Match.GetPlayerCount` from game.go. -/
def Match.GetPlayerCount {Pos : Type} (m : Match Pos) : Nat :=
  m.numPlayers

/-- Lookup `Match.GetPlayerFromUsername` from game.go: scan the two slots in
order, return the first player whose `Username` field equals the argument,
else the zero player with `false`. -/
def Match.GetPlayerFromUsername {Pos : Type} (m : Match Pos)
    (username : String) : Player × Bool :=
  if m.player0.username = username then (m.player0, true)
  else if m.player1.username = username then (m.player1, true)
  else (Player.zero, false)

/-- Join, from `Match.Join` in game.go (current revision). When fewer than two
players are present the counter is incremented; the first joiner takes slot 0
with the colour it asked for, the second joiner takes slot 1 with the
complement of slot 0's colour and `EventStarted` is sent (plain, blocking
send) to both channels. When the match is full the zero player and `false`
are returned and the state is untouched. Result `none` models the operation
blocking forever on a channel send. -/
def Match.Join {Pos : Type} (m : Match Pos) (username : String)
    (asColor : Color) : Option (Match Pos × Player × Bool) :=
  if m.GetPlayerCount < 2 then
    let jid := m.numPlayers + 1
    if jid = 1 then
      let p := NewPlayer username 1 asColor
      some ({ m with numPlayers := jid, player0 := p }, p, true)
    else
      let p1 := m.player0
      let p2 := NewPlayer username jid p1.color.other
      match sendBlocking p1.events
          (EventStarted p2.username (p2.color = Color.black) m.startTime m.endTime) with
      | none => none
      | some buf1 =>
        match sendBlocking p2.events
            (EventStarted p1.username (p1.color = Color.black) m.startTime m.endTime) with
        | none => none
        | some buf2 =>
          some ({ m with numPlayers := jid,
                         player0 := { p1 with events := some buf1 },
                         player1 := { p2 with events := some buf2 } },
                { p2 with events := some buf2 }, true)
  else
    some (m, Player.zero, false)

/-- Move validation and application, from `Match.doMove` in game.go: reject if
the username matches neither slot, if it is not the player's colour's turn on
the engine's position, or if the engine rejects the move string; otherwise
apply the move to the position. Returns the (possibly updated) match and the
`ok` flag. -/
def Match.doMove {Pos : Type} (E : Engine Pos) (m : Match Pos) (player : Player)
    (moveStr : String) : Match Pos × Bool :=
  if player.username ≠ m.player0.username ∧ player.username ≠ m.player1.username then
    (m, false)
  else if E.turn m.pos ≠ player.color then
    (m, false)
  else
    match E.applyUCI m.pos moveStr with
    | none => (m, false)
    | some q => ({ m with pos := q }, true)

/-- Move entry point, from `Match.MoveAs` in game.go: run `doMove`; on success
pick the opponent channel (slot 1's if the mover's username equals slot 0's
username, else slot 0's) and, if it is non-nil, send `EventMove` with the
non-blocking `select`/`default` idiom, dropping the event when the buffer is
full. -/
def Match.MoveAs {Pos : Type} (E : Engine Pos) (m : Match Pos) (player : Player)
    (moveStr : String) : Match Pos × Bool :=
  match Match.doMove E m player moveStr with
  | (m1, false) => (m1, false)
  | (m1, true) =>
    if player.username = m1.player0.username then
      match m1.player1.events with
      | none => (m1, true)
      | some buf =>
        ({ m1 with player1 := { m1.player1 with
             events := some (sendNonBlocking buf (EventMove moveStr)) } }, true)
    else
      match m1.player0.events with
      | none => (m1, true)
      | some buf =>
        ({ m1 with player0 := { m1.player0 with
             events := some (sendNonBlocking buf (EventMove moveStr)) } }, true)

/-- Opponent outbox exactly as the epilogue of `Match.MoveAs` selects it:
slot 1's channel when the mover's username equals slot 0's username, slot 0's
channel otherwise (game.go lines 167-171). -/
def Match.oppEvents {Pos : Type} (m : Match Pos) (p : Player) : EventChan :=
  if p.username = m.player0.username then m.player1.events else m.player0.events

/-- The mover's own outbox under the same slot selection as
`Match.oppEvents`. -/
def Match.moverEvents {Pos : Type} (m : Match Pos) (p : Player) : EventChan :=
  if p.username = m.player0.username then m.player0.events else m.player1.events

/-- Resignation, from `Match.Resign` in game.go: record the resignation with
the engine, pick the opponent slot by the caller's id (slot 1 if `Id == 1`,
else slot 0) and send `EventResigned` with a plain blocking send; on return
the deferred `ShutDown` cancels the cleanup context. Result `none` models the
send blocking forever (nil channel or full buffer), in which case the function
never returns and `ShutDown` never runs. -/
def Match.Resign {Pos : Type} (E : Engine Pos) (m : Match Pos)
    (player : Player) : Option (Match Pos) :=
  let m1 := { m with pos := E.resignAs m.pos player.color }
  if player.id = 1 then
    match sendBlocking m1.player1.events EventResigned with
    | none => none
    | some buf =>
      some { m1 with player1 := { m1.player1 with events := some buf },
                     shutDown := true }
  else
    match sendBlocking m1.player0.events EventResigned with
    | none => none
    | some buf =>
      some { m1 with player0 := { m1.player0 with events := some buf },
                     shutDown := true }

/-!
Older revision of the coordinator, from `src/server/game/match.go`
(package `game`, corentings/chess). Only the parts that the claims touch are
embedded: the `Match` struct's player counter and colour slots and its `Join`.
That revision's `Join` tests `GetPlayerCount() > 2` (not `< 2`) before
admitting a joiner.
-/

/-- Match session of the older revision (`match.go`): atomic counter and a
two-slot colour array; channels, move relay and clock fields are omitted
because that revision's `Join` does not touch them. -/
structure OldMatch where
  numPlayers : Nat
  color0 : Color
  color1 : Color
deriving DecidableEq

/-- Session state as the older revision's `NewMatch` constructs it: zero
players, zero-valued colour slots (`[2]chess.Color{}` means `NoColor` twice). -/
def OldMatch.init : OldMatch :=
  ⟨0, Color.noColor, Color.noColor⟩

/-- Join of the older revision (`Match.Join` in match.go): admits a joiner
only when `GetPlayerCount() > 2`; inside that branch the counter is
incremented and the first joiner fixes both colour slots; otherwise returns
`(-1, false)`. Returned id is `Int` to carry the literal `-1`. -/
def OldMatch.Join (m : OldMatch) (asColor : Color) : OldMatch × Int × Bool :=
  if m.numPlayers > 2 then
    let jid := m.numPlayers + 1
    if jid = 1 then
      ({ m with numPlayers := jid, color0 := asColor, color1 := asColor.other },
        (jid : Int), true)
    else
      ({ m with numPlayers := jid }, (jid : Int), true)
  else
    (m, -1, false)

/-- Fold a list of join requests through the older revision's `Join`,
keeping only the evolving state. -/
def OldMatch.joinAll (m : OldMatch) : List Color → OldMatch
  | [] => m
  | c :: cs => OldMatch.joinAll (OldMatch.Join m c).1 cs

/-- States of the current revision reachable from a given session by any
sequence of completed `Join` calls (a call that blocks has no successor
state). -/
inductive JoinReach {Pos : Type} (m0 : Match Pos) : Match Pos → Prop where
  | refl : JoinReach m0 m0
  | step {m m1 : Match Pos} {p : Player} {ok : Bool} (u : String) (c : Color) :
      JoinReach m0 m → Match.Join m u c = some (m1, p, ok) → JoinReach m0 m1

/-- Concrete engine instance used to evaluate the coordinator at specific
inputs. The position is just the colour to move (`true` = white); every
non-empty string decodes to a legal move and flips the turn. It satisfies both
engine laws, so it is admissible wherever the abstract `Engine` is. -/
def toyEngine : Engine Bool where
  turn b := if b then Color.white else Color.black
  applyUCI b s := if s = "" then none else some (!b)
  resignAs b _ := b
  turn_not_nocolor := by intro p; cases p <;> simp
  turn_alternates := by
    intro p s q h
    by_cases hs : s = "" <;> cases p <;> cases q <;> simp_all [Color.other]

/-!
Concrete session states used by witnesses and counterexamples: a fresh match
(`NewMatch 0 0 "ABCDEF" true` over the concrete engine), the state after
alice joins as white, and the state after bob joins second (assigned black),
with the `EventStarted` notifications sitting in both outboxes.
-/

/-- Session after alice joined a fresh match as white. -/
def wOne : Match Bool :=
  { startTime := 0, endTime := oneMinute, id := "ABCDEF", pos := true,
    numPlayers := 1,
    player0 := NewPlayer "alice" 1 Color.white,
    player1 := Player.zero,
    shutDown := false }

/-- Session after bob joined `wOne` second and was assigned black; each outbox
holds the opponent-info event from the second join. -/
def wTwo : Match Bool :=
  { startTime := 0, endTime := oneMinute, id := "ABCDEF", pos := true,
    numPlayers := 2,
    player0 := { username := "alice", id := 1, color := Color.white,
                 events := some [EventStarted "bob" true 0 oneMinute] },
    player1 := { username := "bob", id := 2, color := Color.black,
                 events := some [EventStarted "alice" false 0 oneMinute] },
    shutDown := false }

/-- Alice's player value as stored in slot 0 of `wTwo` (what
`GetPlayerFromUsername` hands to `MoveAs` and `Resign`). -/
def wAlice : Player :=
  { username := "alice", id := 1, color := Color.white,
    events := some [EventStarted "bob" true 0 oneMinute] }

/-- Variant of `wTwo` in which bob's outbox buffer is full: ten queued move
events, exactly the channel capacity. -/
def wTwoFull : Match Bool :=
  { wTwo with player1 := { wTwo.player1 with
      events := some (List.replicate 10 (EventMove "a1a2")) } }

/-- C6: the session built by `NewMatch` has its deadline equal to its creation
time plus the requested duration clamped between one minute and twelve hours
(durations below one minute are raised to one minute, durations above twelve
hours are lowered to twelve hours, anything in between is used as is). -/
theorem newMatch_deadline_clamped {Pos : Type} (now duration : Int)
    (idStr : String) (startPos : Pos) :
    (NewMatch now duration idStr startPos).endTime =
      now + min twelveHours (max oneMinute duration) ∧
    (NewMatch now duration idStr startPos).startTime = now := by
  exact ⟨rfl, rfl⟩

/-- C5: starting from a session nobody has joined, the first successful join
is assigned exactly the colour it requested, and the second successful join is
assigned the complement of the first joiner's colour, whatever colour the
second caller asked for. -/
theorem join_side_assignment {Pos : Type} (m m1 m2 : Match Pos)
    (u1 u2 : String) (c1 c2 : Color) (q1 q2 : Player)
    (h0 : m.numPlayers = 0)
    (h1 : m.Join u1 c1 = some (m1, q1, true))
    (h2 : m1.Join u2 c2 = some (m2, q2, true)) :
    q1.color = c1 ∧ q2.color = c1.other := by
  unfold Match.Join at h1
  simp only [Match.GetPlayerCount, h0] at h1
  norm_num at h1
  obtain ⟨hm1, hq1, _⟩ := h1
  subst hm1
  unfold Match.Join at h2
  simp only [Match.GetPlayerCount] at h2
  norm_num [NewPlayer, sendBlocking, chanCap] at h2
  obtain ⟨_, _, _⟩ := h2
  exact ⟨rfl, rfl⟩

/-- Witness for C5: alice joins a fresh match requesting white and gets white;
bob joins second also requesting white and is assigned black, the complement
of alice's colour. -/
theorem join_side_assignment_witness :
    (NewPlayer "alice" 1 Color.white).color = Color.white ∧
    wTwo.player1.color = Color.white.other :=
  join_side_assignment (NewMatch 0 0 "ABCDEF" true) wOne wTwo
    "alice" "bob" Color.white Color.white
    (NewPlayer "alice" 1 Color.white) wTwo.player1
    (by decide) (by decide) (by decide)

/-- Fact used for C8: a single join call of the older revision, applied to the
zero-player initial state, fails: `0 > 2` is false. -/
theorem oldJoin_init_fails (c : Color) :
    OldMatch.Join OldMatch.init c = (OldMatch.init, -1, false) := by
  rfl

/-- C8: the two revisions of `Join` are not equivalent. The older revision
(match.go) guards admission with `GetPlayerCount() > 2`; since the counter
only grows inside that branch and starts at 0, the guard never fires, so every
call in every sequence returns `ok = false` and the state never changes. The
current revision (game.go) admits the first two joiners. -/
theorem join_revisions_inequivalent :
    (∀ cs : List Color, OldMatch.joinAll OldMatch.init cs = OldMatch.init) ∧
    (∀ c : Color,
      OldMatch.Join OldMatch.init c = (OldMatch.init, -1, false)) ∧
    (∀ (Pos : Type) (now dur : Int) (idStr : String) (startPos : Pos)
        (u1 u2 : String) (c1 c2 : Color),
      ∃ (m1 : Match Pos) (q1 : Player),
        (NewMatch now dur idStr startPos).Join u1 c1 = some (m1, q1, true) ∧
        ∃ (m2 : Match Pos) (q2 : Player),
          m1.Join u2 c2 = some (m2, q2, true)) := by
  refine ⟨?_, ?_, ?_⟩
  · intro cs
    induction cs with
    | nil => rfl
    | cons c cs ih =>
      unfold OldMatch.joinAll
      rw [oldJoin_init_fails c]
      exact ih
  · intro c
    exact oldJoin_init_fails c
  · intro Pos now dur idStr startPos u1 u2 c1 c2
    exact ⟨_, _, rfl, _, _, rfl⟩

/-- Case analysis of a completed `Join` call: either the session had room and
the counter went up by one with `ok = true`, or it was full and the call
changed nothing, returning the zero player and `ok = false`. -/
theorem join_step_cases {Pos : Type} {m m1 : Match Pos} {p : Player} {ok : Bool}
    {u : String} {c : Color}
    (h : m.Join u c = some (m1, p, ok)) :
    (m.numPlayers < 2 ∧ m1.numPlayers = m.numPlayers + 1 ∧ ok = true) ∨
    (2 ≤ m.numPlayers ∧ m1 = m ∧ p = Player.zero ∧ ok = false) := by
  unfold Match.Join at h
  simp only [Match.GetPlayerCount] at h
  split at h
  case isTrue hlt =>
    left
    refine ⟨hlt, ?_⟩
    split at h
    case isTrue h1 =>
      simp only [Option.some.injEq, Prod.mk.injEq] at h
      obtain ⟨hm, _, hok⟩ := h
      subst hm
      exact ⟨rfl, hok.symm⟩
    case isFalse h1 =>
      split at h
      case h_1 => exact absurd h (by simp)
      case h_2 =>
        split at h
        case h_1 => exact absurd h (by simp)
        case h_2 =>
          simp only [Option.some.injEq, Prod.mk.injEq] at h
          obtain ⟨hm, _, hok⟩ := h
          subst hm
          exact ⟨rfl, hok.symm⟩
  case isFalse hge =>
    simp only [Option.some.injEq, Prod.mk.injEq] at h
    obtain ⟨hm, hp, hok⟩ := h
    right
    exact ⟨Nat.le_of_not_lt hge, hm.symm, hp.symm, hok.symm⟩

/-- C1: in every session and under every sequence of `Join` calls, the player
counter never exceeds 2, and once two joins have succeeded (counter at 2)
every further `Join` call returns the zero player with `ok = false` and
leaves the session — participant slots included — completely unchanged. -/
theorem join_capacity_invariant {Pos : Type} (now dur : Int) (idStr : String)
    (startPos : Pos) (m : Match Pos)
    (h : JoinReach (NewMatch now dur idStr startPos) m) (u : String) (c : Color) :
    m.numPlayers ≤ 2 ∧
    (m.numPlayers = 2 → m.Join u c = some (m, Player.zero, false)) := by
  have hle : m.numPlayers ≤ 2 := by
    induction h with
    | refl => exact Nat.zero_le 2
    | step u1 c1 hr hj ih =>
      rcases join_step_cases hj with ⟨hlt, heq, _⟩ | ⟨_, heq, _, _⟩
      · omega
      · rw [heq]; exact ih
  refine ⟨hle, fun h2 => ?_⟩
  unfold Match.Join
  simp [Match.GetPlayerCount, h2]

/-- Witness for C1: the session in which alice and bob have both joined has
two players, and a third join attempt by carol fails and leaves it unchanged. -/
theorem join_capacity_invariant_witness :
    wTwo.numPlayers ≤ 2 ∧
    (wTwo.numPlayers = 2 →
      wTwo.Join "carol" Color.white = some (wTwo, Player.zero, false)) := by
  have h1 : (NewMatch 0 0 "ABCDEF" true).Join "alice" Color.white =
      some (wOne, NewPlayer "alice" 1 Color.white, true) := by decide
  have h2 : wOne.Join "bob" Color.black = some (wTwo, wTwo.player1, true) := by
    decide
  exact join_capacity_invariant 0 0 "ABCDEF" true wTwo
    (JoinReach.step "bob" Color.black
      (JoinReach.step "alice" Color.white JoinReach.refl h1) h2)
    "carol" Color.white

/-- Full case analysis of `doMove`: the call either rejects a foreigner, an
out-of-turn player, or an engine-rejected move string — in each case without
touching the session — or it applies the accepted move to the position and
reports success. -/
theorem doMove_spec {Pos : Type} (E : Engine Pos) (m : Match Pos) (p : Player)
    (s : String) :
    (¬(p.username = m.player0.username ∨ p.username = m.player1.username) ∧
      Match.doMove E m p s = (m, false)) ∨
    ((p.username = m.player0.username ∨ p.username = m.player1.username) ∧
      E.turn m.pos ≠ p.color ∧ Match.doMove E m p s = (m, false)) ∨
    ((p.username = m.player0.username ∨ p.username = m.player1.username) ∧
      E.turn m.pos = p.color ∧ E.applyUCI m.pos s = none ∧
      Match.doMove E m p s = (m, false)) ∨
    (∃ q : Pos,
      (p.username = m.player0.username ∨ p.username = m.player1.username) ∧
      E.turn m.pos = p.color ∧ E.applyUCI m.pos s = some q ∧
      Match.doMove E m p s = ({ m with pos := q }, true)) := by
  unfold Match.doMove
  by_cases h1 : p.username ≠ m.player0.username ∧ p.username ≠ m.player1.username
  · left
    constructor
    · push_neg
      exact h1
    · rw [if_pos h1]
  · have h1m : p.username = m.player0.username ∨ p.username = m.player1.username := by
      by_contra hc
      push_neg at hc
      exact h1 hc
    rw [if_neg h1]
    by_cases h2 : E.turn m.pos ≠ p.color
    · right; left
      exact ⟨h1m, h2, by rw [if_pos h2]⟩
    · push_neg at h2
      rw [if_neg (by simp [h2])]
      cases h3 : E.applyUCI m.pos s with
      | none =>
        right; right; left
        exact ⟨h1m, h2, rfl, rfl⟩
      | some q =>
        right; right; right
        exact ⟨q, h1m, h2, rfl, rfl⟩

/-- The success flag of `MoveAs` is exactly the success flag of `doMove`:
the event-sending epilogue never changes the verdict. -/
theorem moveAs_snd_eq_doMove {Pos : Type} (E : Engine Pos) (m : Match Pos)
    (p : Player) (s : String) :
    (Match.MoveAs E m p s).2 = (Match.doMove E m p s).2 := by
  unfold Match.MoveAs
  rcases hdo : Match.doMove E m p s with ⟨m1, ok⟩
  cases ok
  · rfl
  · by_cases hu : p.username = m1.player0.username
    · simp only [if_pos hu]
      cases m1.player1.events <;> rfl
    · simp only [if_neg hu]
      cases m1.player0.events <;> rfl

/-- The event-sending epilogue of `MoveAs` preserves everything about the
resulting session except the channel buffer it appends to: position, counter,
and each slot's username, id and colour agree with the `doMove` result. -/
theorem moveAs_fst_frame {Pos : Type} (E : Engine Pos) (m : Match Pos)
    (p : Player) (s : String) :
    (Match.MoveAs E m p s).1.pos = (Match.doMove E m p s).1.pos ∧
    (Match.MoveAs E m p s).1.numPlayers = (Match.doMove E m p s).1.numPlayers ∧
    (Match.MoveAs E m p s).1.player0.username = (Match.doMove E m p s).1.player0.username ∧
    (Match.MoveAs E m p s).1.player0.id = (Match.doMove E m p s).1.player0.id ∧
    (Match.MoveAs E m p s).1.player0.color = (Match.doMove E m p s).1.player0.color ∧
    (Match.MoveAs E m p s).1.player1.username = (Match.doMove E m p s).1.player1.username ∧
    (Match.MoveAs E m p s).1.player1.id = (Match.doMove E m p s).1.player1.id ∧
    (Match.MoveAs E m p s).1.player1.color = (Match.doMove E m p s).1.player1.color := by
  unfold Match.MoveAs
  rcases hdo : Match.doMove E m p s with ⟨m1, ok⟩
  cases ok
  · exact ⟨rfl, rfl, rfl, rfl, rfl, rfl, rfl, rfl⟩
  · by_cases hu : p.username = m1.player0.username
    · simp only [if_pos hu]
      cases m1.player1.events <;> exact ⟨rfl, rfl, rfl, rfl, rfl, rfl, rfl, rfl⟩
    · simp only [if_neg hu]
      cases m1.player0.events <;> exact ⟨rfl, rfl, rfl, rfl, rfl, rfl, rfl, rfl⟩

/-- Complementing a proper colour never returns the same colour. -/
theorem Color.other_ne {c : Color} (h : c ≠ Color.noColor) : c.other ≠ c := by
  cases c with
  | noColor => exact absurd rfl h
  | white => decide
  | black => decide

/-- C4: `MoveAs` returns `false` exactly when the caller's username matches
neither participant slot, or the engine position says it is not the caller's
colour's turn, or the engine rejects the move string as undecodable or
illegal; and after a successful `MoveAs` an immediately following `MoveAs` by
the same player fails, whatever move it tries. -/
theorem moveAs_failure_characterization {Pos : Type} (E : Engine Pos)
    (m : Match Pos) (p : Player) (s : String) :
    ((Match.MoveAs E m p s).2 = false ↔
      (p.username ≠ m.player0.username ∧ p.username ≠ m.player1.username) ∨
      E.turn m.pos ≠ p.color ∨
      E.applyUCI m.pos s = none) ∧
    (∀ s2 : String, (Match.MoveAs E m p s).2 = true →
      (Match.MoveAs E (Match.MoveAs E m p s).1 p s2).2 = false) := by
  constructor
  · rw [moveAs_snd_eq_doMove]
    rcases doMove_spec E m p s with
        ⟨hmem, heq⟩ | ⟨hmem, hturn, heq⟩ | ⟨hmem, hturn, happ, heq⟩ |
        ⟨q, hmem, hturn, happ, heq⟩
    · push_neg at hmem
      simp [heq, hmem]
    · simp [heq, hturn]
    · simp [heq, happ]
    · constructor
      · intro hfalse
        rw [heq] at hfalse
        simp at hfalse
      · intro hcases
        rcases hcases with hne | hne | hne
        · rcases hmem with hm0 | hm1
          · exact absurd hm0 hne.1
          · exact absurd hm1 hne.2
        · exact absurd hturn hne
        · rw [happ] at hne
          simp at hne
  · intro s2 hsucc
    rw [moveAs_snd_eq_doMove] at hsucc
    rcases doMove_spec E m p s with
        ⟨_, heq⟩ | ⟨_, _, heq⟩ | ⟨_, _, _, heq⟩ | ⟨q, hmem, hturn, happ, heq⟩
    · rw [heq] at hsucc; simp at hsucc
    · rw [heq] at hsucc; simp at hsucc
    · rw [heq] at hsucc; simp at hsucc
    · rw [moveAs_snd_eq_doMove]
      have hpos : (Match.MoveAs E m p s).1.pos = q := by
        rw [(moveAs_fst_frame E m p s).1, heq]
      have hq : E.turn q = p.color.other := by
        rw [E.turn_alternates m.pos s q happ, hturn]
      have hnc : p.color ≠ Color.noColor := by
        rw [← hturn]
        exact E.turn_not_nocolor m.pos
      rcases doMove_spec E (Match.MoveAs E m p s).1 p s2 with
          ⟨_, heq2⟩ | ⟨_, _, heq2⟩ | ⟨_, _, _, heq2⟩ | ⟨q2, _, hturn2, _, _⟩
      · rw [heq2]
      · rw [heq2]
      · rw [heq2]
      · exfalso
        rw [hpos, hq] at hturn2
        exact Color.other_ne hnc hturn2

/-- Witness for C4: in the two-player session, alice's move is accepted (so
the failure disjunction is false both ways), and her immediately following
second move attempt is rejected. -/
theorem moveAs_failure_characterization_witness :
    ((Match.MoveAs toyEngine wTwo wAlice "e2e4").2 = false ↔
      (wAlice.username ≠ wTwo.player0.username ∧
        wAlice.username ≠ wTwo.player1.username) ∨
      toyEngine.turn wTwo.pos ≠ wAlice.color ∨
      toyEngine.applyUCI wTwo.pos "e2e4" = none) ∧
    (Match.MoveAs toyEngine
        (Match.MoveAs toyEngine wTwo wAlice "e2e4").1 wAlice "d2d4").2 = false :=
  ⟨(moveAs_failure_characterization toyEngine wTwo wAlice "e2e4").1,
   (moveAs_failure_characterization toyEngine wTwo wAlice "e2e4").2 "d2d4"
     (by decide)⟩

/-- C9: in a session where exactly one participant has joined, choosing white,
that participant can move before any opponent arrives: a move the engine
accepts on the white-to-move position returns `true`, and since the empty
second slot's channel is nil, no event is sent anywhere — the session changes
only in its position. -/
theorem moveAs_single_player_succeeds {Pos : Type} (E : Engine Pos)
    (now dur : Int) (idStr : String) (startPos : Pos) (u s : String)
    (m1 : Match Pos) (p : Player) (q : Pos)
    (hj : (NewMatch now dur idStr startPos).Join u Color.white = some (m1, p, true))
    (hw : E.turn m1.pos = Color.white)
    (hmv : E.applyUCI m1.pos s = some q) :
    (Match.MoveAs E m1 p s).2 = true ∧
    (Match.MoveAs E m1 p s).1 = { m1 with pos := q } := by
  unfold Match.Join at hj
  simp only [Match.GetPlayerCount] at hj
  norm_num [NewMatch] at hj
  obtain ⟨hm1, hp⟩ := hj
  subst hm1
  subst hp
  simp only [Match.MoveAs, Match.doMove, NewPlayer, Player.zero] at hw hmv ⊢
  simp [hw, hmv]

/-- Witness for C9: alice, the only joiner of a fresh match, playing white,
moves before bob arrives; the move is accepted and only the position changes. -/
theorem moveAs_single_player_succeeds_witness :
    (Match.MoveAs toyEngine wOne (NewPlayer "alice" 1 Color.white) "e2e4").2 = true ∧
    (Match.MoveAs toyEngine wOne (NewPlayer "alice" 1 Color.white) "e2e4").1 =
      { wOne with pos := false } :=
  moveAs_single_player_succeeds toyEngine 0 0 "ABCDEF" true "alice" "e2e4"
    wOne (NewPlayer "alice" 1 Color.white) false
    (by decide) (by decide) (by decide)

/-- C7 as amended: a successful `MoveAs` whose opponent outbox has room
appends exactly one `MoveMade` event to that outbox, leaves the mover's own
outbox untouched, and preserves both slots' usernames, ids and colours as
well as the player counter. -/
theorem moveAs_event_frame {Pos : Type} (E : Engine Pos) (m : Match Pos)
    (p : Player) (s : String) (buf : List Event)
    (_hmem : p.username = m.player0.username ∨ p.username = m.player1.username)
    (hok : (Match.MoveAs E m p s).2 = true)
    (hopp : Match.oppEvents m p = some buf)
    (hlen : buf.length < chanCap) :
    Match.oppEvents (Match.MoveAs E m p s).1 p = some (buf ++ [EventMove s]) ∧
    Match.moverEvents (Match.MoveAs E m p s).1 p = Match.moverEvents m p ∧
    (Match.MoveAs E m p s).1.player0.username = m.player0.username ∧
    (Match.MoveAs E m p s).1.player0.id = m.player0.id ∧
    (Match.MoveAs E m p s).1.player0.color = m.player0.color ∧
    (Match.MoveAs E m p s).1.player1.username = m.player1.username ∧
    (Match.MoveAs E m p s).1.player1.id = m.player1.id ∧
    (Match.MoveAs E m p s).1.player1.color = m.player1.color ∧
    (Match.MoveAs E m p s).1.numPlayers = m.numPlayers := by
  have hsnd := moveAs_snd_eq_doMove E m p s
  rcases doMove_spec E m p s with
      ⟨_, heq⟩ | ⟨_, _, heq⟩ | ⟨_, _, _, heq⟩ | ⟨q, _, _, _, heq⟩
  · rw [hsnd, heq] at hok
    simp at hok
  · rw [hsnd, heq] at hok
    simp at hok
  · rw [hsnd, heq] at hok
    simp at hok
  · unfold Match.MoveAs
    simp only [heq]
    by_cases hu : p.username = m.player0.username
    · have hopp1 : m.player1.events = some buf := by
        unfold Match.oppEvents at hopp
        rwa [if_pos hu] at hopp
      simp [Match.oppEvents, Match.moverEvents, hu, hopp1, sendNonBlocking, hlen]
    · have hopp0 : m.player0.events = some buf := by
        unfold Match.oppEvents at hopp
        rwa [if_neg hu] at hopp
      simp [Match.oppEvents, Match.moverEvents, hu, hopp0, sendNonBlocking, hlen]

/-- Counterexample for C7 as frozen: when the opponent outbox is already at
its capacity of 10 events, a successful `MoveAs` enqueues nothing — the
opponent buffer is exactly what it was, with no `MoveMade` event in it. -/
theorem moveAs_full_outbox_drops_event :
    (Match.MoveAs toyEngine wTwoFull wAlice "e2e4").2 = true ∧
    (Match.MoveAs toyEngine wTwoFull wAlice "e2e4").1.player1.events =
      some (List.replicate 10 (EventMove "a1a2")) ∧
    EventMove "e2e4" ∉ List.replicate 10 (EventMove "a1a2") := by
  decide

/-- Witness for the amended C7: alice's accepted move appends exactly one
`MoveMade` event to bob's outbox (behind the join notification already
queued), leaves her own outbox alone and preserves both slots. -/
theorem moveAs_event_frame_witness :
    Match.oppEvents (Match.MoveAs toyEngine wTwo wAlice "e2e4").1 wAlice =
      some ([EventStarted "alice" false 0 oneMinute] ++ [EventMove "e2e4"]) ∧
    Match.moverEvents (Match.MoveAs toyEngine wTwo wAlice "e2e4").1 wAlice =
      Match.moverEvents wTwo wAlice ∧
    (Match.MoveAs toyEngine wTwo wAlice "e2e4").1.player0.username =
      wTwo.player0.username ∧
    (Match.MoveAs toyEngine wTwo wAlice "e2e4").1.player0.id = wTwo.player0.id ∧
    (Match.MoveAs toyEngine wTwo wAlice "e2e4").1.player0.color =
      wTwo.player0.color ∧
    (Match.MoveAs toyEngine wTwo wAlice "e2e4").1.player1.username =
      wTwo.player1.username ∧
    (Match.MoveAs toyEngine wTwo wAlice "e2e4").1.player1.id = wTwo.player1.id ∧
    (Match.MoveAs toyEngine wTwo wAlice "e2e4").1.player1.color =
      wTwo.player1.color ∧
    (Match.MoveAs toyEngine wTwo wAlice "e2e4").1.numPlayers = wTwo.numPlayers :=
  moveAs_event_frame toyEngine wTwo wAlice "e2e4"
    [EventStarted "alice" false 0 oneMinute]
    (Or.inl (by decide)) (by decide) (by decide) (by decide)

/-- C2 at the failing input: with bob's outbox full, alice's `Resign` performs
a plain channel send that blocks forever, so the operation never completes —
the event is not dropped and control never returns — while the `MoveMade`
path of `MoveAs` at the same state does drop the event and return. -/
theorem resign_blocks_on_full_outbox :
    Match.Resign toyEngine wTwoFull wAlice = none ∧
    (Match.MoveAs toyEngine wTwoFull wAlice "e2e4").2 = true := by
  decide

/-- C3 at the failing inputs: two `Resign` calls by alice deliver the
`Resigned` event to bob's outbox twice, not at most once; a `Resign` by a
player who never joined an empty session blocks forever on the nil slot-0
channel; and a `Resign` by a never-joined player in a one-player session
mutates the session, enqueueing `Resigned` to the sole participant and
cancelling the cleanup context. -/
theorem resign_not_idempotent :
    Option.map (fun m : Match Bool => m.player1.events)
      ((Match.Resign toyEngine wTwo wAlice).bind
        (fun m1 => Match.Resign toyEngine m1 wAlice)) =
      some (some [EventStarted "alice" false 0 oneMinute,
                  EventResigned, EventResigned]) ∧
    Match.Resign toyEngine (NewMatch 0 0 "ABCDEF" true) Player.zero = none ∧
    Option.map (fun m : Match Bool => (m.player0.events, m.shutDown))
      (Match.Resign toyEngine wOne Player.zero) =
      some (some [EventResigned], true) := by
  decide

/-- Reachability invariant for sessions with fewer than two joiners: before
any join both slots hold the zero player, and after exactly one join slot 0
holds the joiner (id 1) while slot 1 still holds the zero player. -/
theorem joinReach_empty_slots {Pos : Type} (now dur : Int) (idStr : String)
    (startPos : Pos) (m : Match Pos)
    (h : JoinReach (NewMatch now dur idStr startPos) m) :
    (m.numPlayers = 0 → m.player0 = Player.zero ∧ m.player1 = Player.zero) ∧
    (m.numPlayers = 1 →
      ∃ u c, m.player0 = NewPlayer u 1 c ∧ m.player1 = Player.zero) := by
  induction h with
  | refl =>
    constructor
    · intro _
      exact ⟨rfl, rfl⟩
    · intro hcontra
      exact absurd hcontra (by simp [NewMatch])
  | @step mp m1 p ok u c hr hj ih =>
    unfold Match.Join at hj
    simp only [Match.GetPlayerCount] at hj
    split at hj
    case isTrue hlt =>
      split at hj
      case isTrue h1 =>
        simp only [Option.some.injEq, Prod.mk.injEq] at hj
        obtain ⟨hm, _⟩ := hj
        have h0 : mp.numPlayers = 0 := by omega
        constructor
        · intro hcontra
          rw [← hm] at hcontra
          simp at hcontra
        · intro _
          refine ⟨u, c, ?_, ?_⟩
          · rw [← hm]
          · rw [← hm]
            exact (ih.1 h0).2
      case isFalse h1 =>
        split at hj
        case h_1 => exact absurd hj (by simp)
        case h_2 =>
          split at hj
          case h_1 => exact absurd hj (by simp)
          case h_2 =>
            simp only [Option.some.injEq, Prod.mk.injEq] at hj
            obtain ⟨hm, _⟩ := hj
            constructor
            · intro hcontra
              rw [← hm] at hcontra
              simp at hcontra
            · intro hcontra
              rw [← hm] at hcontra
              simp at hcontra
              omega
    case isFalse hge =>
      simp only [Option.some.injEq, Prod.mk.injEq] at hj
      obtain ⟨hm, _⟩ := hj
      rw [← hm]
      exact ih

/-- C10: in a reachable session with fewer than two joined participants, as
long as the occupied slot (if any) does not carry the empty username, looking
up the empty string finds the first empty slot: the call returns the
zero-value `Player` together with `found = true`, because an empty slot is a
zero `Player` whose username is the empty string. -/
theorem lookup_empty_username_zero_player {Pos : Type} (now dur : Int)
    (idStr : String) (startPos : Pos) (m : Match Pos)
    (h : JoinReach (NewMatch now dur idStr startPos) m)
    (hlt : m.numPlayers < 2)
    (hname : m.numPlayers = 1 → m.player0.username ≠ "") :
    m.GetPlayerFromUsername "" = (Player.zero, true) := by
  have hinv := joinReach_empty_slots now dur idStr startPos m h
  have hcases : m.numPlayers = 0 ∨ m.numPlayers = 1 := by omega
  unfold Match.GetPlayerFromUsername
  rcases hcases with h0 | h1
  · obtain ⟨hp0, _⟩ := hinv.1 h0
    rw [hp0]
    simp [Player.zero]
  · obtain ⟨u, c, hp0, hp1⟩ := hinv.2 h1
    have hu : ¬(m.player0.username = "") := hname h1
    rw [if_neg hu, hp1]
    simp [Player.zero]

/-- Witness for C10: in the one-player session where alice has joined, the
empty-string lookup returns the zero player and reports success. -/
theorem lookup_empty_username_zero_player_witness :
    wOne.GetPlayerFromUsername "" = (Player.zero, true) := by
  have h1 : (NewMatch 0 0 "ABCDEF" true).Join "alice" Color.white =
      some (wOne, NewPlayer "alice" 1 Color.white, true) := by decide
  exact lookup_empty_username_zero_player 0 0 "ABCDEF" true wOne
    (JoinReach.step "alice" Color.white JoinReach.refl h1)
    (by decide) (fun _ => by decide)
